import Mathlib

/-!
Verification of the paged storage engine of `rust_sqlite`
(files `src/lib.rs` and `src/main.rs`), shallowly embedded in Lean.

Bytes are modelled as `Nat` (well-formedness predicates bound them by 256
where it matters), byte buffers and file contents as `List Nat`, machine
integers as `Nat` with explicit bounds.  Fallible Rust code is modelled by
the `Step` outcome type: an `Err(e)` returned through `?` becomes `.err`,
a process abort via `panic! / assert! / .expect(..)` becomes `.panicked`.
I/O syscalls that can fail are driven by an explicit fault oracle
(`IoFaults`); `noFaults` is the run in which every syscall succeeds.
-/

set_option maxRecDepth 40000

namespace RustSqlite

/-! ## Constants (src/lib.rs) -/

def COLUMN_USERNAME_SIZE : Nat := 32
def COLUMN_EMAIL_SIZE : Nat := 255
def ID_SIZE : Nat := 4
def USERNAME_SIZE : Nat := COLUMN_USERNAME_SIZE
def EMAIL_SIZE : Nat := COLUMN_EMAIL_SIZE

def ID_OFFSET : Nat := 0
def USERNAME_OFFSET : Nat := ID_OFFSET + ID_SIZE
def EMAIL_OFFSET : Nat := USERNAME_OFFSET + USERNAME_SIZE
def ROW_SIZE : Nat := ID_SIZE + USERNAME_SIZE + EMAIL_SIZE

def PAGE_SIZE : Nat := 4096
def TABLE_MAX_PAGES : Nat := 100
def ROWS_PER_PAGE : Nat := PAGE_SIZE / ROW_SIZE
def TABLE_MAX_ROWS : Nat := ROWS_PER_PAGE * TABLE_MAX_PAGES

/-! ## Byte-buffer primitives

`writeRange dest off src` models the Rust slice update
`dest[off..off+src.len()].copy_from_slice(src)`; `readRange src off len`
models the slice `src[off..off+len]` (as a copied value). -/

def writeRange (dest : List Nat) (off : Nat) (src : List Nat) : List Nat :=
  dest.take off ++ src ++ dest.drop (off + src.length)

def readRange (src : List Nat) (off len : Nat) : List Nat :=
  (src.drop off).take len

/-- Models a POSIX positional write into a file: writing `data` at byte
offset `off` overwrites that range, zero-filling any gap past EOF and
extending the file as needed. -/
def fileWrite (file : List Nat) (off : Nat) (data : List Nat) : List Nat :=
  (file.take off ++ List.replicate (off - file.length) 0) ++ data ++
    file.drop (off + data.length)

/-- Left-justified zero padding of a byte string into a fixed buffer, the
way `Statement::prepare` builds the `username` / `email` arrays. -/
def padTo (l : List Nat) (n : Nat) : List Nat :=
  l ++ List.replicate (n - l.length) 0

/-! ## u32 little-endian codec (`u32::to_le_bytes` / `u32::from_le_bytes`) -/

def u32ToLeBytes (n : Nat) : List Nat :=
  [n % 256, n / 256 % 256, n / 65536 % 256, n / 16777216 % 256]

def u32FromLeBytes (bs : List Nat) : Nat :=
  bs.getD 0 0 + bs.getD 1 0 * 256 + bs.getD 2 0 * 65536 + bs.getD 3 0 * 16777216

/-! ## Row codec (src/main.rs, `struct Row`) -/

/-- `Row { id: u32, username: [u8; USERNAME_SIZE], email: [u8; EMAIL_SIZE] }`.
Well-formed values satisfy `Row.WF`. -/
structure Row where
  id : Nat
  username : List Nat
  email : List Nat
  deriving DecidableEq, Repr

/-- The representation invariants the Rust field types enforce statically:
`id` fits in a `u32` and the two buffers have their fixed lengths. -/
def Row.WF (r : Row) : Prop :=
  r.id < 4294967296 ∧ r.username.length = USERNAME_SIZE ∧
    r.email.length = EMAIL_SIZE

instance (r : Row) : Decidable r.WF := by
  unfold Row.WF; infer_instance

/-- `Row::serialize`: copy the three fields into `destination` at the fixed
offsets (id as 4 little-endian bytes at `ID_OFFSET`, then username, then
email), returning the mutated buffer. -/
def Row.serialize (r : Row) (destination : List Nat) : List Nat :=
  let d1 := writeRange destination ID_OFFSET (u32ToLeBytes r.id)
  let d2 := writeRange d1 USERNAME_OFFSET r.username
  writeRange d2 EMAIL_OFFSET r.email

/-- `Row::deserialize`: read the three fields back from the fixed offsets. -/
def Row.deserialize (source : List Nat) : Row :=
  { id := u32FromLeBytes (readRange source ID_OFFSET ID_SIZE)
    username := readRange source USERNAME_OFFSET USERNAME_SIZE
    email := readRange source EMAIL_OFFSET EMAIL_SIZE }

/-! ## Outcomes and the I/O fault oracle -/

/-- Outcome of running a piece of Rust code that owns state `σ`:
`ok a s` is normal return, `err e s` is an `Err(e)` propagated with `?`
(the state survives, as it does behind a `&mut` borrow), `panicked msg`
is a process abort (`panic!`, `assert!`, `.expect(..)`). -/
inductive Step (ε α σ : Type) where
  | ok : α → σ → Step ε α σ
  | err : ε → σ → Step ε α σ
  | panicked : String → Step ε α σ
  deriving DecidableEq, Repr

/-- Which syscalls fail during a run.  `noFaults` is the all-success run;
each flag makes every syscall of that kind fail. -/
structure IoFaults where
  openFails : Bool
  seekFails : Bool
  readFails : Bool
  writeFails : Bool
  flushFails : Bool
  deriving DecidableEq, Repr

def noFaults : IoFaults := ⟨false, false, false, false, false⟩

/-- `enum ExecuteError { TableFull, Io(io::Error) }`. -/
inductive ExecuteError where
  | tableFull
  | ioError
  deriving DecidableEq, Repr

/-! ## Pager (src/main.rs, `struct Pager`) -/

/-- Pager state: the backing file's bytes, the file length observed at open
time (`file.seek(SeekFrom::End(0))`), and the `TABLE_MAX_PAGES` optional
page buffers.  `reads` and `writes` are a ghost I/O trace used only to
state properties: `reads` counts `read_exact` calls, `writes` records each
`flush_page` write as `(page_num, size)`. -/
structure Pager where
  file : List Nat
  fileLength : Nat
  pages : List (Option (List Nat))
  reads : Nat
  writes : List (Nat × Nat)
  deriving DecidableEq, Repr

/-- `Pager::open` (named `openP` because `open` is a Lean keyword):
opens (creating if absent) the file — this `OpenOptions::open` call is
wrapped in `.expect("Error while opening pager")`, so its failure is a
panic — then records the length via a seek whose failure propagates as an
I/O error through `?`, and initializes every page slot as absent. -/
def Pager.openP (disk : List Nat) (f : IoFaults) : Step Unit Pager Unit :=
  if f.openFails then .panicked "Error while opening pager"
  else if f.seekFails then .err () ()
  else
    .ok { file := disk, fileLength := disk.length,
          pages := List.replicate TABLE_MAX_PAGES none,
          reads := 0, writes := [] } ()

/-- `Pager::get_page`: asserts `page_num < TABLE_MAX_PAGES`; on a cache
miss allocates a zeroed page and, when `page_num` is below
`file_length.div_ceil(PAGE_SIZE)`, seeks (failure = panic via `.expect`)
and `read_exact`s the prefix (failure = panic via `.expect`); stores and
returns the page. -/
def Pager.getPage (p : Pager) (page_num : Nat) (f : IoFaults) :
    Step Empty (List Nat) Pager :=
  if TABLE_MAX_PAGES ≤ page_num then .panicked "Page number out of bounds"
  else
    match p.pages.getD page_num none with
    | some page => .ok page p
    | none =>
      let num_pages_on_disk := (p.fileLength + PAGE_SIZE - 1) / PAGE_SIZE
      if page_num < num_pages_on_disk then
        if f.seekFails then .panicked "Unable to set page offset in file."
        else
          let remaining_bytes := p.fileLength - page_num * PAGE_SIZE
          let bytes_to_read := min remaining_bytes PAGE_SIZE
          if 0 < bytes_to_read then
            if f.readFails then .panicked "Unable to read the page from file."
            else
              let page := readRange p.file (page_num * PAGE_SIZE) bytes_to_read ++
                List.replicate (PAGE_SIZE - bytes_to_read) 0
              .ok page { p with pages := p.pages.set page_num (some page),
                                reads := p.reads + 1 }
          else
            let page := List.replicate PAGE_SIZE 0
            .ok page { p with pages := p.pages.set page_num (some page) }
      else
        let page := List.replicate PAGE_SIZE 0
        .ok page { p with pages := p.pages.set page_num (some page) }

/-- Specification helper: the page content `get_page page_num` returns —
the resident buffer if the slot is loaded, otherwise the content a load
would produce (file prefix read plus zero fill). -/
def Pager.pageView (p : Pager) (page_num : Nat) : List Nat :=
  match p.pages.getD page_num none with
  | some page => page
  | none =>
    let num_pages_on_disk := (p.fileLength + PAGE_SIZE - 1) / PAGE_SIZE
    if page_num < num_pages_on_disk then
      let bytes_to_read := min (p.fileLength - page_num * PAGE_SIZE) PAGE_SIZE
      readRange p.file (page_num * PAGE_SIZE) bytes_to_read ++
        List.replicate (PAGE_SIZE - bytes_to_read) 0
    else List.replicate PAGE_SIZE 0

/-- Specification helper: invariants of a pager reachable inside a
session — the slot array has its fixed size, the recorded file length is
covered by the actual file bytes, and every resident page buffer is
exactly one page long. -/
def Pager.WF (p : Pager) : Prop :=
  p.pages.length = TABLE_MAX_PAGES ∧
  p.fileLength ≤ p.file.length ∧
  ∀ j pg, p.pages.getD j none = some pg → pg.length = PAGE_SIZE

/-- Write-back of a page buffer mutated through the `&mut` reference
`get_page` returned. -/
def Pager.setPage (p : Pager) (page_num : Nat) (page : List Nat) : Pager :=
  { p with pages := p.pages.set page_num (some page) }

/-- `Pager::flush_page`: panics on a never-loaded slot, else seeks and
writes the first `size` bytes of the buffer at offset
`page_num * PAGE_SIZE`; seek/write failures propagate as I/O errors. -/
def Pager.flushPage (p : Pager) (page_num size : Nat) (f : IoFaults) :
    Step Unit Unit Pager :=
  match p.pages.getD page_num none with
  | none => .panicked "Tried to flush a null page"
  | some page =>
    if f.seekFails then .err () p
    else if f.writeFails then .err () p
    else
      .ok () { p with
        file := fileWrite p.file (page_num * PAGE_SIZE) (page.take size),
        writes := p.writes ++ [(page_num, size)] }

/-- The `for i in 0..num_full_pages { self.flush_page(i, PAGE_SIZE)?; }`
loop of `flush_all`, flushing `count` full pages starting at `i`;
the `?` aborts the loop on the first error. -/
def Pager.flushLoop (p : Pager) (i count : Nat) (f : IoFaults) :
    Step Unit Unit Pager :=
  match count with
  | 0 => .ok () p
  | c + 1 =>
    match p.flushPage i PAGE_SIZE f with
    | .panicked m => .panicked m
    | .err e p' => .err e p'
    | .ok _ p' => p'.flushLoop (i + 1) c f

/-- `Pager::flush_all`: flush the `num_rows / ROWS_PER_PAGE` full pages
with `PAGE_SIZE` bytes each, then (if `num_rows % ROWS_PER_PAGE > 0`) the
partial last page with `remainder * ROW_SIZE` bytes, then `file.flush()`. -/
def Pager.flushAll (p : Pager) (num_rows : Nat) (f : IoFaults) :
    Step Unit Unit Pager :=
  let num_full_pages := num_rows / ROWS_PER_PAGE
  match p.flushLoop 0 num_full_pages f with
  | .panicked m => .panicked m
  | .err e p' => .err e p'
  | .ok _ p' =>
    let num_additional_rows := num_rows % ROWS_PER_PAGE
    if 0 < num_additional_rows then
      let last_page_num := num_full_pages
      let size_to_flush := num_additional_rows * ROW_SIZE
      match p'.flushPage last_page_num size_to_flush f with
      | .panicked m => .panicked m
      | .err e p'' => .err e p''
      | .ok _ p'' => if f.flushFails then .err () p'' else .ok () p''
    else if f.flushFails then .err () p' else .ok () p'

/-! ## Table and Cursor (src/main.rs) -/

structure Table where
  num_rows : Nat
  pager : Pager
  deriving DecidableEq, Repr

/-- `Table::db_open`: open the pager, then
`num_rows = min(file_length / ROW_SIZE, TABLE_MAX_ROWS)`. -/
def Table.dbOpen (disk : List Nat) (f : IoFaults) : Step Unit Table Unit :=
  match Pager.openP disk f with
  | .panicked m => .panicked m
  | .err e s => .err e s
  | .ok pager _ =>
    let num_rows := min (pager.fileLength / ROW_SIZE) TABLE_MAX_ROWS
    .ok { num_rows := num_rows, pager := pager } ()

/-- `Table::db_close`: `self.pager.flush_all(self.num_rows)`.  The final
pager is kept as the outcome state so the resulting file is observable. -/
def Table.dbClose (t : Table) (f : IoFaults) : Step Unit Unit Pager :=
  t.pager.flushAll t.num_rows f

/-- `struct Cursor { table, row_num, end_of_table }` (the `&mut Table`
borrow is modelled by the cursor owning the table state). -/
structure Cursor where
  table : Table
  row_num : Nat
  end_of_table : Bool
  deriving DecidableEq, Repr

/-- `Table::table_start`. -/
def Table.tableStart (t : Table) : Cursor :=
  { table := t, row_num := 0, end_of_table := t.num_rows == 0 }

/-- `Table::table_end`. -/
def Table.tableEnd (t : Table) : Cursor :=
  { table := t, row_num := t.num_rows, end_of_table := true }

/-- `Cursor::value` used as a read: returns a copy of the `ROW_SIZE`-byte
window of the owning page (the page having been materialized by
`get_page`), together with the cursor whose table absorbed the pager
mutation. -/
def Cursor.valueRead (c : Cursor) (f : IoFaults) :
    Step Empty (List Nat) Cursor :=
  let row_num := c.row_num
  let page_num := row_num / ROWS_PER_PAGE
  match c.table.pager.getPage page_num f with
  | .panicked m => .panicked m
  | .err e _ => e.elim
  | .ok page pager =>
    let row_offset := row_num % ROWS_PER_PAGE
    let byte_offset := row_offset * ROW_SIZE
    .ok (readRange page byte_offset ROW_SIZE)
      { c with table := { c.table with pager := pager } }

/-- `row.serialize(cursor.value())`: serialize the row into the
`ROW_SIZE`-byte window of the owning page, through the `&mut` slice
`Cursor::value` returns; the mutated page is written back into the
pager's slot. -/
def Cursor.writeRow (c : Cursor) (row : Row) (f : IoFaults) :
    Step Empty Unit Cursor :=
  let row_num := c.row_num
  let page_num := row_num / ROWS_PER_PAGE
  match c.table.pager.getPage page_num f with
  | .panicked m => .panicked m
  | .err e _ => e.elim
  | .ok page pager =>
    let row_offset := row_num % ROWS_PER_PAGE
    let byte_offset := row_offset * ROW_SIZE
    let window := readRange page byte_offset ROW_SIZE
    let newPage := writeRange page byte_offset (Row.serialize row window)
    .ok ()
      { c with table := { c.table with pager := pager.setPage page_num newPage } }

/-- `Cursor::advance`. -/
def Cursor.advance (c : Cursor) : Cursor :=
  let row_num := c.row_num + 1
  { c with row_num := row_num,
           end_of_table :=
             if c.table.num_rows ≤ row_num then true else c.end_of_table }

/-- `Iterator::next for Cursor`. -/
def Cursor.next (c : Cursor) (f : IoFaults) :
    Step Empty (Option Row) Cursor :=
  if c.end_of_table then .ok none c
  else
    match c.valueRead f with
    | .panicked m => .panicked m
    | .err e _ => e.elim
    | .ok window c' => .ok (some (Row.deserialize window)) c'.advance

/-- The `for row in table.table_start()` loop of `Statement::select`,
collecting the yielded rows.  `fuel` bounds the number of iterations (the
Rust loop is unbounded); `num_rows + 1` is proven sufficient. -/
def scanAux (fuel : Nat) (c : Cursor) (f : IoFaults) :
    Step Empty (List Row) Cursor :=
  match fuel with
  | 0 => .ok [] c
  | fuel + 1 =>
    match c.next f with
    | .panicked m => .panicked m
    | .err e _ => e.elim
    | .ok none c' => .ok [] c'
    | .ok (some r) c' =>
      match scanAux fuel c' f with
      | .panicked m => .panicked m
      | .err e _ => e.elim
      | .ok rs c'' => .ok (r :: rs) c''

/-- `Statement::select`: scan all rows from `table_start`. -/
def Table.select (t : Table) (f : IoFaults) : Step Empty (List Row) Table :=
  match scanAux (t.num_rows + 1) t.tableStart f with
  | .panicked m => .panicked m
  | .err e _ => e.elim
  | .ok rows c => .ok rows c.table

/-- `Statement::insert`: refuse when `num_rows >= TABLE_MAX_ROWS`
(`ExecuteError::TableFull`, table untouched), else serialize the row into
`table_end().value()` and increment `num_rows`. -/
def Statement.insert (t : Table) (row : Row) (f : IoFaults) :
    Step ExecuteError Unit Table :=
  if TABLE_MAX_ROWS ≤ t.num_rows then .err .tableFull t
  else
    match (t.tableEnd).writeRow row f with
    | .panicked m => .panicked m
    | .err e _ => e.elim
    | .ok _ c => .ok () { c.table with num_rows := c.table.num_rows + 1 }

/-- Specification helper: the row a scan yields at index `n` — the
`ROW_SIZE`-byte window at page `n / ROWS_PER_PAGE`, byte offset
`(n % ROWS_PER_PAGE) * ROW_SIZE`, deserialized. -/
def rowAt (t : Table) (n : Nat) : Row :=
  Row.deserialize (readRange (t.pager.pageView (n / ROWS_PER_PAGE))
    ((n % ROWS_PER_PAGE) * ROW_SIZE) ROW_SIZE)

/-- Sequence of inserts (left to right), stopping at the first error. -/
def insertMany (t : Table) (rows : List Row) (f : IoFaults) :
    Step ExecuteError Unit Table :=
  match rows with
  | [] => .ok () t
  | r :: rs =>
    match Statement.insert t r f with
    | .panicked m => .panicked m
    | .err e t' => .err e t'
    | .ok _ t' => insertMany t' rs f

/-! ## Concrete scenario pipelines -/

/-- Bytes of the string "user1". -/
def user1Bytes : List Nat := [117, 115, 101, 114, 49]

/-- Bytes of the string "person1(at)example.com" (ASCII codes, with 64 the
at sign). -/
def email1Bytes : List Nat :=
  [112, 101, 114, 115, 111, 110, 49, 64, 101, 120, 97, 109, 112, 108, 101,
   46, 99, 111, 109]

/-- The row `(1, "user1", "person1@example.com")` as `Statement::prepare`
builds it (fields zero-padded to their fixed sizes). -/
def row1 : Row :=
  { id := 1, username := padTo user1Bytes USERNAME_SIZE,
    email := padTo email1Bytes EMAIL_SIZE }

/-- Close-after-reopen scenario: open a file that already holds one row's
worth of bytes and close immediately (no row read or appended). -/
def closeAfterReopen : Option (Step Unit Unit Pager) :=
  match Table.dbOpen (List.replicate ROW_SIZE 7) noFaults with
  | .ok t _ => some (t.dbClose noFaults)
  | _ => none

/-- Partial-last-page scenario: open an empty file, insert
`ROWS_PER_PAGE + 1` copies of `row1`, close.  Yields the resulting file's
byte length. -/
def partialPageFileLength : Option Nat :=
  match Table.dbOpen [] noFaults with
  | .ok t _ =>
    match insertMany t (List.replicate (ROWS_PER_PAGE + 1) row1) noFaults with
    | .ok _ t1 =>
      match t1.dbClose noFaults with
      | .ok _ pager => some pager.file.length
      | _ => none
    | _ => none
  | _ => none

/-! ## Helper lemmas about the buffer primitives -/

theorem writeRange_length (d src : List Nat) (off : Nat)
    (h : off + src.length ≤ d.length) :
    (writeRange d off src).length = d.length := by
  simp [writeRange]
  omega

theorem readRange_length (src : List Nat) (off len : Nat)
    (h : off + len ≤ src.length) : (readRange src off len).length = len := by
  simp [readRange]
  omega

/-- Reading back exactly the bytes just written. -/
theorem readRange_writeRange_self (d src : List Nat) (off : Nat)
    (h : off + src.length ≤ d.length) :
    readRange (writeRange d off src) off src.length = src := by
  unfold readRange writeRange
  rw [List.append_assoc]
  rw [List.drop_left' (show (d.take off).length = off by simp; omega)]
  exact List.take_left src _

/-- Writing at offset `off` does not disturb a read that ends at or
before `off`. -/
theorem readRange_writeRange_before (d src : List Nat) (off roff rlen : Nat)
    (hb : roff + rlen ≤ off) (hoff : off ≤ d.length) :
    readRange (writeRange d off src) roff rlen = readRange d roff rlen := by
  unfold readRange writeRange
  rw [List.append_assoc]
  rw [List.drop_append_of_le_length (show roff ≤ (d.take off).length by simp; omega)]
  rw [List.take_append_of_le_length
    (show rlen ≤ ((d.take off).drop roff).length by simp; omega)]
  rw [List.drop_take, List.take_take]
  rw [show rlen ⊓ (off - roff) = rlen by omega]

theorem u32_roundtrip (n : Nat) (h : n < 4294967296) :
    u32FromLeBytes (u32ToLeBytes n) = n := by
  simp [u32FromLeBytes, u32ToLeBytes, List.getD]
  omega

theorem padTo_length (l : List Nat) (n : Nat) (h : l.length ≤ n) :
    (padTo l n).length = n := by
  simp [padTo]
  omega

theorem fileWrite_length (file data : List Nat) (off : Nat) :
    (fileWrite file off data).length = max file.length (off + data.length) := by
  simp [fileWrite]
  omega

/-! ## Row codec lemmas -/

theorem u32ToLeBytes_length (n : Nat) : (u32ToLeBytes n).length = 4 := rfl

theorem serialize_length (r : Row) (d : List Nat)
    (h2 : r.username.length = USERNAME_SIZE) (h3 : r.email.length = EMAIL_SIZE)
    (hd : ROW_SIZE ≤ d.length) :
    (Row.serialize r d).length = d.length := by
  simp only [USERNAME_SIZE, EMAIL_SIZE, COLUMN_USERNAME_SIZE, COLUMN_EMAIL_SIZE,
    ROW_SIZE, ID_SIZE] at h2 h3 hd
  have hid : (u32ToLeBytes r.id).length = 4 := rfl
  unfold Row.serialize
  simp only [ID_OFFSET, USERNAME_OFFSET, EMAIL_OFFSET, ID_SIZE, USERNAME_SIZE,
    EMAIL_SIZE, COLUMN_USERNAME_SIZE, COLUMN_EMAIL_SIZE, Nat.zero_add]
  have l1 : (writeRange d 0 (u32ToLeBytes r.id)).length = d.length :=
    writeRange_length d (u32ToLeBytes r.id) 0 (by rw [hid]; omega)
  have l2 : (writeRange (writeRange d 0 (u32ToLeBytes r.id)) 4 r.username).length
      = d.length := by
    rw [writeRange_length (writeRange d 0 (u32ToLeBytes r.id)) r.username 4
      (by omega)]
    exact l1
  rw [writeRange_length (writeRange (writeRange d 0 (u32ToLeBytes r.id)) 4
    r.username) r.email 36 (by omega)]
  exact l2

/-- The three field reads of a just-serialized row, at the fixed offsets. -/
theorem serialize_reads (r : Row) (dest : List Nat)
    (h2 : r.username.length = USERNAME_SIZE) (h3 : r.email.length = EMAIL_SIZE)
    (hd : ROW_SIZE ≤ dest.length) :
    readRange (Row.serialize r dest) 0 4 = u32ToLeBytes r.id ∧
      readRange (Row.serialize r dest) 4 32 = r.username ∧
      readRange (Row.serialize r dest) 36 255 = r.email := by
  simp only [USERNAME_SIZE, EMAIL_SIZE, COLUMN_USERNAME_SIZE, COLUMN_EMAIL_SIZE,
    ROW_SIZE, ID_SIZE] at h2 h3 hd
  have hid : (u32ToLeBytes r.id).length = 4 := rfl
  unfold Row.serialize
  simp only [ID_OFFSET, ID_SIZE, USERNAME_OFFSET, USERNAME_SIZE, EMAIL_OFFSET,
    EMAIL_SIZE, COLUMN_USERNAME_SIZE, COLUMN_EMAIL_SIZE, Nat.zero_add]
  set d1 := writeRange dest 0 (u32ToLeBytes r.id) with hd1
  have hld1 : d1.length = dest.length := by
    rw [hd1, writeRange_length dest (u32ToLeBytes r.id) 0 (by rw [hid]; omega)]
  set d2 := writeRange d1 4 r.username with hd2
  have hld2 : d2.length = dest.length := by
    rw [hd2, writeRange_length d1 r.username 4 (by omega)]
    exact hld1
  refine ⟨?_, ?_, ?_⟩
  · rw [readRange_writeRange_before d2 r.email 36 0 4 (by omega) (by omega)]
    rw [hd2, readRange_writeRange_before d1 r.username 4 0 4 (by omega) (by omega)]
    have := readRange_writeRange_self dest (u32ToLeBytes r.id) 0
      (by rw [hid]; omega)
    rwa [hid] at this
  · rw [readRange_writeRange_before d2 r.email 36 4 32 (by omega) (by omega)]
    have := readRange_writeRange_self d1 r.username 4 (by omega)
    rwa [h2] at this
  · have := readRange_writeRange_self d2 r.email 36 (by omega)
    rwa [h3] at this

/-- The row codec round-trip, split out as a reusable lemma. -/
theorem deserialize_serialize (r : Row) (dest : List Nat) (h1 : r.id < 4294967296)
    (h2 : r.username.length = USERNAME_SIZE) (h3 : r.email.length = EMAIL_SIZE)
    (hd : ROW_SIZE ≤ dest.length) :
    Row.deserialize (Row.serialize r dest) = r := by
  obtain ⟨ha, hb, hc⟩ := serialize_reads r dest h2 h3 hd
  unfold Row.deserialize
  simp only [ID_OFFSET, ID_SIZE, USERNAME_OFFSET, USERNAME_SIZE, EMAIL_OFFSET,
    EMAIL_SIZE, COLUMN_USERNAME_SIZE, COLUMN_EMAIL_SIZE, Nat.zero_add]
  rw [ha, hb, hc, u32_roundtrip r.id h1]

/-- **C4** — For every record whose username and email occupy their
fixed-size zero-padded buffers (32 and 255 bytes) and whose id fits in a
u32, `deserialize (serialize record dest)` returns the record unchanged:
same little-endian u32 id at offset 0, same 32-byte username buffer at
offset 4, same 255-byte email buffer at offset 36. -/
theorem c4_serialize_deserialize_roundtrip (r : Row) (dest : List Nat)
    (hwf : r.WF) (hd : ROW_SIZE ≤ dest.length) :
    Row.deserialize (Row.serialize r dest) = r ∧
      readRange (Row.serialize r dest) ID_OFFSET ID_SIZE = u32ToLeBytes r.id ∧
      readRange (Row.serialize r dest) USERNAME_OFFSET USERNAME_SIZE = r.username ∧
      readRange (Row.serialize r dest) EMAIL_OFFSET EMAIL_SIZE = r.email := by
  obtain ⟨h1, h2, h3⟩ := hwf
  obtain ⟨ha, hb, hc⟩ := serialize_reads r dest h2 h3 hd
  exact ⟨deserialize_serialize r dest h1 h2 h3 hd, ha, hb, hc⟩

/-- Witness for C4 at the concrete row `(1, "user1", "person1@example.com")`
serialized into a fresh zeroed `ROW_SIZE`-byte buffer. -/
theorem c4_witness :
    (row1.WF ∧ ROW_SIZE ≤ (List.replicate ROW_SIZE 0).length) ∧
      Row.deserialize (Row.serialize row1 (List.replicate ROW_SIZE 0)) = row1 :=
  ⟨⟨by decide, by decide⟩,
    (c4_serialize_deserialize_roundtrip row1 (List.replicate ROW_SIZE 0)
      (by decide) (by decide)).1⟩

/-! ## List getD helpers -/

theorem getD_set_self (l : List (Option (List Nat))) (i : Nat)
    (a : Option (List Nat)) (h : i < l.length) :
    (l.set i a).getD i none = a := by
  simp [List.getD_eq_getElem?_getD, List.getElem?_set_self h]

theorem getD_set_ne (l : List (Option (List Nat))) (i j : Nat)
    (a : Option (List Nat)) (h : i ≠ j) :
    (l.set i a).getD j none = l.getD j none := by
  simp [List.getD_eq_getElem?_getD, List.getElem?_set_ne h]

theorem getD_replicate_none (k i : Nat) :
    (List.replicate k (none : Option (List Nat))).getD i none = none := by
  simp only [List.getD_eq_getElem?_getD, List.getElem?_replicate]
  split <;> rfl

/-! ## Pager lemmas -/

/-- A cache hit returns the resident buffer unchanged and performs no
syscall at all (so it succeeds under any fault oracle). -/
theorem getPage_hit (p : Pager) (n : Nat) (f : IoFaults) (pg : List Nat)
    (hn : n < TABLE_MAX_PAGES) (h : p.pages.getD n none = some pg) :
    p.getPage n f = .ok pg p := by
  unfold Pager.getPage
  rw [if_neg (Nat.not_le.mpr hn), h]

theorem pageView_of_some (p : Pager) (n : Nat) (pg : List Nat)
    (h : p.pages.getD n none = some pg) : p.pageView n = pg := by
  unfold Pager.pageView
  rw [h]

/-- `pageView` on an absent slot within the on-disk page range. -/
theorem pageView_none_disk (p : Pager) (n : Nat)
    (hslot : p.pages.getD n none = none)
    (hdisk : n < (p.fileLength + PAGE_SIZE - 1) / PAGE_SIZE) :
    p.pageView n =
      readRange p.file (n * PAGE_SIZE)
          (min (p.fileLength - n * PAGE_SIZE) PAGE_SIZE) ++
        List.replicate
          (PAGE_SIZE - min (p.fileLength - n * PAGE_SIZE) PAGE_SIZE) 0 := by
  unfold Pager.pageView
  rw [hslot]
  exact if_pos hdisk

/-- `pageView` on an absent slot beyond the on-disk page range. -/
theorem pageView_none_beyond (p : Pager) (n : Nat)
    (hslot : p.pages.getD n none = none)
    (hdisk : ¬ n < (p.fileLength + PAGE_SIZE - 1) / PAGE_SIZE) :
    p.pageView n = List.replicate PAGE_SIZE 0 := by
  unfold Pager.pageView
  rw [hslot]
  exact if_neg hdisk

/-- Cache miss, page within the on-disk range, nonzero read: load and
store the file prefix plus zero fill, counting one disk read. -/
theorem getPage_miss_disk (p : Pager) (n : Nat)
    (hslot : p.pages.getD n none = none)
    (hdisk : n < (p.fileLength + PAGE_SIZE - 1) / PAGE_SIZE)
    (hbytes : 0 < min (p.fileLength - n * PAGE_SIZE) PAGE_SIZE)
    (hn : n < TABLE_MAX_PAGES) :
    p.getPage n noFaults =
      .ok (p.pageView n)
        { p with pages := p.pages.set n (some (p.pageView n)),
                 reads := p.reads + 1 } := by
  unfold Pager.getPage
  rw [if_neg (Nat.not_le.mpr hn), hslot]
  show (if n < (p.fileLength + PAGE_SIZE - 1) / PAGE_SIZE then _ else _) = _
  rw [if_pos hdisk, if_neg (by decide : ¬ (noFaults.seekFails = true))]
  rw [pageView_none_disk p n hslot hdisk]
  show (if 0 < min (p.fileLength - n * PAGE_SIZE) PAGE_SIZE then _ else _) = _
  rw [if_pos hbytes, if_neg (by decide : ¬ (noFaults.readFails = true))]

/-- Cache miss with nothing to read (page beyond the range, or an empty
read): store the zero page, no disk read. -/
theorem getPage_miss_beyond (p : Pager) (n : Nat)
    (hslot : p.pages.getD n none = none)
    (hdisk : ¬ n < (p.fileLength + PAGE_SIZE - 1) / PAGE_SIZE)
    (hn : n < TABLE_MAX_PAGES) :
    p.getPage n noFaults =
      .ok (p.pageView n)
        { p with pages := p.pages.set n (some (p.pageView n)) } := by
  unfold Pager.getPage
  rw [if_neg (Nat.not_le.mpr hn), hslot]
  show (if n < (p.fileLength + PAGE_SIZE - 1) / PAGE_SIZE then _ else _) = _
  rw [if_neg hdisk, pageView_none_beyond p n hslot hdisk]

/-- A page index strictly below `ceil(L / PAGE_SIZE)` always has a
nonzero number of bytes to read. -/
theorem bytes_pos (L n : Nat) (hdisk : n < (L + PAGE_SIZE - 1) / PAGE_SIZE) :
    0 < min (L - n * PAGE_SIZE) PAGE_SIZE := by
  simp only [PAGE_SIZE] at *
  omega

/-- `get_page` in the all-success run: returns `pageView`, stores it,
and touches nothing else (file, file length, write trace, and every
page's view are preserved). -/
theorem getPage_ok (p : Pager) (n : Nat) (hn : n < TABLE_MAX_PAGES)
    (hlen : p.pages.length = TABLE_MAX_PAGES) :
    ∃ p', p.getPage n noFaults = .ok (p.pageView n) p' ∧
      p'.file = p.file ∧ p'.fileLength = p.fileLength ∧
      p'.writes = p.writes ∧ p'.pages.length = TABLE_MAX_PAGES ∧
      p'.pages.getD n none = some (p.pageView n) ∧
      (∀ m, m ≠ n → p'.pages.getD m none = p.pages.getD m none) ∧
      (∀ m, p'.pageView m = p.pageView m) := by
  have hview : ∀ q : Pager, q.pages.getD n none = some (p.pageView n) →
      q.file = p.file → q.fileLength = p.fileLength →
      (∀ m, m ≠ n → q.pages.getD m none = p.pages.getD m none) →
      (∀ m, q.pageView m = p.pageView m) := by
    intro q h1 h2 h3 h4 m
    by_cases hm : m = n
    · subst hm
      rw [pageView_of_some q m (p.pageView m) h1]
    · unfold Pager.pageView
      rw [h4 m hm, h2, h3]
  cases hslot : p.pages.getD n none with
  | some pg =>
    refine ⟨p, ?_, rfl, rfl, rfl, hlen, ?_, fun m _ => rfl, fun m => rfl⟩
    · rw [pageView_of_some p n pg hslot]
      exact getPage_hit p n noFaults pg hn hslot
    · rw [pageView_of_some p n pg hslot]; exact hslot
  | none =>
    have hset : (p.pages.set n (some (p.pageView n))).getD n none
        = some (p.pageView n) :=
      getD_set_self _ _ _ (by omega)
    have hne : ∀ m, m ≠ n →
        (p.pages.set n (some (p.pageView n))).getD m none
          = p.pages.getD m none := by
      intro m hm
      exact getD_set_ne _ _ _ _ (fun e => hm e.symm)
    by_cases hdisk : n < (p.fileLength + PAGE_SIZE - 1) / PAGE_SIZE
    · refine ⟨_, getPage_miss_disk p n hslot hdisk
        (bytes_pos p.fileLength n hdisk) hn, rfl, rfl, rfl, ?_, hset, hne, ?_⟩
      · simpa using hlen
      · exact hview _ hset rfl rfl hne
    · refine ⟨_, getPage_miss_beyond p n hslot hdisk hn, rfl, rfl, rfl, ?_,
        hset, hne, ?_⟩
      · simpa using hlen
      · exact hview _ hset rfl rfl hne

theorem pageView_setPage_self (p : Pager) (n : Nat) (pg : List Nat)
    (h : n < p.pages.length) : (p.setPage n pg).pageView n = pg :=
  pageView_of_some _ _ _ (getD_set_self _ _ _ h)

theorem pageView_setPage_ne (p : Pager) (n m : Nat) (pg : List Nat)
    (hm : m ≠ n) : (p.setPage n pg).pageView m = p.pageView m := by
  unfold Pager.pageView Pager.setPage
  rw [getD_set_ne _ _ _ _ (fun e => hm e.symm)]

/-! ## Insert lemmas -/

/-- The page index of any row number below `TABLE_MAX_ROWS` is a legal
page index. -/
theorem rowPage_lt (n : Nat) (h : n < TABLE_MAX_ROWS) :
    n / ROWS_PER_PAGE < TABLE_MAX_PAGES := by
  simp only [TABLE_MAX_ROWS, TABLE_MAX_PAGES, ROWS_PER_PAGE, PAGE_SIZE,
    ROW_SIZE, ID_SIZE, USERNAME_SIZE, EMAIL_SIZE, COLUMN_USERNAME_SIZE,
    COLUMN_EMAIL_SIZE] at *
  omega

/-- **C8 helper** — insert on a full table is refused with `TableFull`
and the table state is returned untouched, under any fault oracle. -/
theorem insert_full (t : Table) (row : Row) (f : IoFaults)
    (h : TABLE_MAX_ROWS ≤ t.num_rows) :
    Statement.insert t row f = .err .tableFull t := by
  unfold Statement.insert
  rw [if_pos h]

/-- Insert below capacity in the all-success run: succeeds, bumps
`num_rows`, serializes the row into the row window of the owning page,
and touches no other page and no file state. -/
theorem insert_ok (t : Table) (row : Row) (h : t.num_rows < TABLE_MAX_ROWS)
    (hlen : t.pager.pages.length = TABLE_MAX_PAGES) :
    ∃ t', Statement.insert t row noFaults = .ok () t' ∧
      t'.num_rows = t.num_rows + 1 ∧
      t'.pager.file = t.pager.file ∧
      t'.pager.fileLength = t.pager.fileLength ∧
      t'.pager.writes = t.pager.writes ∧
      t'.pager.pages.length = TABLE_MAX_PAGES ∧
      t'.pager.pages.getD (t.num_rows / ROWS_PER_PAGE) none =
        some (writeRange (t.pager.pageView (t.num_rows / ROWS_PER_PAGE))
          ((t.num_rows % ROWS_PER_PAGE) * ROW_SIZE)
          (Row.serialize row
            (readRange (t.pager.pageView (t.num_rows / ROWS_PER_PAGE))
              ((t.num_rows % ROWS_PER_PAGE) * ROW_SIZE) ROW_SIZE))) ∧
      (∀ m, m ≠ t.num_rows / ROWS_PER_PAGE →
        t'.pager.pages.getD m none = t.pager.pages.getD m none) ∧
      (∀ m, m ≠ t.num_rows / ROWS_PER_PAGE →
        t'.pager.pageView m = t.pager.pageView m) := by
  obtain ⟨p', hget, hfile, hflen, hwr, hplen, hres, hoth, hpv⟩ :=
    getPage_ok t.pager (t.num_rows / ROWS_PER_PAGE)
      (rowPage_lt t.num_rows h) hlen
  unfold Statement.insert
  rw [if_neg (Nat.not_le.mpr h)]
  unfold Cursor.writeRow Table.tableEnd
  dsimp only
  rw [hget]
  refine ⟨_, rfl, rfl, hfile, hflen, hwr, ?_, ?_, ?_, ?_⟩
  · show (p'.pages.set _ _).length = _
    rw [List.length_set]
    exact hplen
  · show (p'.pages.set _ _).getD _ none = _
    exact getD_set_self _ _ _ (by rw [hplen]; exact rowPage_lt t.num_rows h)
  · intro m hm
    show (p'.pages.set _ _).getD m none = _
    rw [getD_set_ne _ _ _ _ (fun e => hm e.symm)]
    exact hoth m hm
  · intro m hm
    show (p'.setPage _ _).pageView m = _
    rw [pageView_setPage_ne _ _ _ _ hm]
    exact hpv m

/-! ## Cursor / scan lemmas -/

/-- `Cursor::value` as a read, in the all-success run: yields the row
window of the owning page and preserves everything about the table but
the pager's residency (whose views are unchanged). -/
theorem valueRead_ok (c : Cursor) (h : c.row_num < TABLE_MAX_ROWS)
    (hlen : c.table.pager.pages.length = TABLE_MAX_PAGES) :
    ∃ c', c.valueRead noFaults =
      .ok (readRange (c.table.pager.pageView (c.row_num / ROWS_PER_PAGE))
        ((c.row_num % ROWS_PER_PAGE) * ROW_SIZE) ROW_SIZE) c' ∧
      c'.row_num = c.row_num ∧ c'.end_of_table = c.end_of_table ∧
      c'.table.num_rows = c.table.num_rows ∧
      c'.table.pager.pages.length = TABLE_MAX_PAGES ∧
      (∀ m, c'.table.pager.pageView m = c.table.pager.pageView m) := by
  obtain ⟨p', hget, _, _, _, hplen, _, _, hpv⟩ :=
    getPage_ok c.table.pager (c.row_num / ROWS_PER_PAGE)
      (rowPage_lt c.row_num h) hlen
  unfold Cursor.valueRead
  dsimp only
  rw [hget]
  exact ⟨_, rfl, rfl, rfl, rfl, hplen, hpv⟩

/-- `Cursor::next` at the end of the table yields nothing and is inert. -/
theorem next_end (c : Cursor) (f : IoFaults) (h : c.end_of_table = true) :
    c.next f = .ok none c := by
  unfold Cursor.next
  rw [if_pos h]

/-- `Cursor::next` before the end of the table, all-success run: yields
`rowAt` of the current row index and advances. -/
theorem next_ok (c : Cursor) (hend : c.end_of_table = false)
    (h : c.row_num < TABLE_MAX_ROWS)
    (hlen : c.table.pager.pages.length = TABLE_MAX_PAGES) :
    ∃ c', c.next noFaults = .ok (some (rowAt c.table c.row_num)) c' ∧
      c'.row_num = c.row_num + 1 ∧
      c'.table.num_rows = c.table.num_rows ∧
      c'.table.pager.pages.length = TABLE_MAX_PAGES ∧
      (∀ m, c'.table.pager.pageView m = c.table.pager.pageView m) ∧
      (c'.end_of_table = true ↔ c.table.num_rows ≤ c.row_num + 1) := by
  obtain ⟨c₁, hval, hrn, hend₁, hnr, hplen₁, hpv₁⟩ := valueRead_ok c h hlen
  unfold Cursor.next
  rw [if_neg (by rw [hend]; exact Bool.false_ne_true)]
  rw [hval]
  unfold Cursor.advance
  dsimp only
  refine ⟨_, rfl, by rw [hrn], hnr, hplen₁, hpv₁, ?_⟩
  rw [hrn, hnr, hend₁, hend]
  by_cases hc : c.table.num_rows ≤ c.row_num + 1
  · rw [if_pos hc]
    simp [hc]
  · rw [if_neg hc]
    simp [hc]

/-- The scan loop, all-success run: starting at `row_num` with the
end-flag invariant, it collects exactly the rows
`row_num .. num_rows - 1`, each read through `rowAt`. -/
theorem scanAux_ok : ∀ (fuel : Nat) (c : Cursor),
    (c.end_of_table = true ↔ c.table.num_rows ≤ c.row_num) →
    c.table.num_rows ≤ TABLE_MAX_ROWS →
    c.table.pager.pages.length = TABLE_MAX_PAGES →
    c.table.num_rows - c.row_num < fuel →
    ∃ c', scanAux fuel c noFaults =
      .ok ((List.range' c.row_num (c.table.num_rows - c.row_num)).map
        (rowAt c.table)) c' := by
  intro fuel
  induction fuel with
  | zero => intro c _ _ _ hf; omega
  | succ n ih =>
    intro c hinv hmax hlen hf
    by_cases hend : c.end_of_table = true
    · have h0 : c.table.num_rows - c.row_num = 0 := by
        have := hinv.mp hend
        omega
      rw [h0]
      refine ⟨c, ?_⟩
      unfold scanAux
      rw [next_end c noFaults hend]
      rfl
    · have hend' : c.end_of_table = false := by
        cases hc : c.end_of_table
        · rfl
        · exact absurd hc hend
      have hlt : c.row_num < c.table.num_rows := by
        by_contra hc
        exact hend (hinv.mpr (by omega))
      obtain ⟨c₂, hnext, hrn₂, hnr₂, hplen₂, hpv₂, hinv₂⟩ :=
        next_ok c hend' (by omega) hlen
      obtain ⟨c₃, hs⟩ := ih c₂ (by rw [hinv₂, hrn₂, hnr₂])
        (by rw [hnr₂]; exact hmax) hplen₂ (by omega)
      refine ⟨c₃, ?_⟩
      unfold scanAux
      rw [hnext]
      dsimp only
      rw [hs]
      dsimp only
      have hmapeq : (List.range' c₂.row_num
            (c₂.table.num_rows - c₂.row_num)).map (rowAt c₂.table)
          = (List.range' (c.row_num + 1)
            (c.table.num_rows - (c.row_num + 1))).map (rowAt c.table) := by
        rw [hrn₂, hnr₂]
        refine List.map_congr_left ?_
        intro a _
        unfold rowAt
        rw [hpv₂]
      rw [hmapeq]
      have hrange : c.table.num_rows - c.row_num
          = (c.table.num_rows - (c.row_num + 1)) + 1 := by omega
      rw [hrange, List.range'_succ, List.map_cons]

/-- `Statement::select`, all-success run: returns the rows at indices
`0 .. num_rows - 1` in order, each read through `rowAt`. -/
theorem select_ok (t : Table) (hmax : t.num_rows ≤ TABLE_MAX_ROWS)
    (hlen : t.pager.pages.length = TABLE_MAX_PAGES) :
    ∃ t', t.select noFaults =
      .ok ((List.range t.num_rows).map (rowAt t)) t' := by
  obtain ⟨c', hs⟩ := scanAux_ok (t.num_rows + 1) t.tableStart
    (by
      show ((t.num_rows == 0) = true ↔ t.num_rows ≤ 0)
      rw [beq_iff_eq]
      omega)
    hmax hlen (by show t.num_rows - 0 < t.num_rows + 1; omega)
  refine ⟨c'.table, ?_⟩
  unfold Table.select
  rw [hs]
  show Step.ok ((List.range' 0 (t.num_rows - 0)).map (rowAt t)) c'.table = _
  rw [Nat.sub_zero, ← List.range_eq_range']

/-! ## Pager invariant lemmas -/

/-- Every page view of a well-formed pager is exactly one page long. -/
theorem pageView_length (p : Pager) (n : Nat) (hwf : p.WF) :
    (p.pageView n).length = PAGE_SIZE := by
  obtain ⟨hlen, hfl, hres⟩ := hwf
  cases hslot : p.pages.getD n none with
  | some pg =>
    rw [pageView_of_some p n pg hslot]
    exact hres n pg hslot
  | none =>
    by_cases hdisk : n < (p.fileLength + PAGE_SIZE - 1) / PAGE_SIZE
    · rw [pageView_none_disk p n hslot hdisk]
      have hnb : n * PAGE_SIZE < p.fileLength := by
        simp only [PAGE_SIZE] at *
        omega
      have hm1 : min (p.fileLength - n * PAGE_SIZE) PAGE_SIZE
          ≤ p.fileLength - n * PAGE_SIZE := Nat.min_le_left _ _
      have hm2 : min (p.fileLength - n * PAGE_SIZE) PAGE_SIZE ≤ PAGE_SIZE :=
        Nat.min_le_right _ _
      rw [List.length_append, List.length_replicate, readRange_length]
      · omega
      · omega
    · rw [pageView_none_beyond p n hslot hdisk, List.length_replicate]

/-! ## Flush lemmas -/

/-- `flush_page` on a resident page, all-success run: writes the page's
`size`-byte prefix at the page's file offset and records the event. -/
theorem flushPage_ok (p : Pager) (n size : Nat) (pg : List Nat)
    (h : p.pages.getD n none = some pg) :
    p.flushPage n size noFaults = .ok ()
      { p with file := fileWrite p.file (n * PAGE_SIZE) (pg.take size),
               writes := p.writes ++ [(n, size)] } := by
  unfold Pager.flushPage
  rw [h]
  rfl

/-- `flush_page` on a never-loaded slot panics, under any fault oracle. -/
theorem flushPage_none (p : Pager) (n size : Nat) (f : IoFaults)
    (h : p.pages.getD n none = none) :
    p.flushPage n size f = .panicked "Tried to flush a null page" := by
  unfold Pager.flushPage
  rw [h]

/-- The full-page flush loop, all-success run: flushes pages
`i .. i + count - 1` with `PAGE_SIZE` bytes each, in order. -/
theorem flushLoop_ok : ∀ (count : Nat) (p : Pager) (i : Nat),
    (∀ j, j < count → (p.pages.getD (i + j) none).isSome = true) →
    ∃ p', p.flushLoop i count noFaults = .ok () p' ∧
      p'.writes = p.writes ++
        (List.range' i count).map (fun j => (j, PAGE_SIZE)) ∧
      p'.pages = p.pages ∧ p'.fileLength = p.fileLength := by
  intro count
  induction count with
  | zero =>
    intro p i _
    exact ⟨p, rfl, by simp, rfl, rfl⟩
  | succ c ihc =>
    intro p i h
    obtain ⟨pg, hpg⟩ : ∃ pg, p.pages.getD i none = some pg := by
      have h0 := h 0 (by omega)
      rw [Nat.add_zero] at h0
      exact Option.isSome_iff_exists.mp h0
    obtain ⟨p', hloop, hw, hp, hf⟩ := ihc
      { p with file := fileWrite p.file (i * PAGE_SIZE) (pg.take PAGE_SIZE),
               writes := p.writes ++ [(i, PAGE_SIZE)] } (i + 1)
      (by
        intro j hj
        show (p.pages.getD (i + 1 + j) none).isSome = true
        have := h (j + 1) (by omega)
        rw [show i + (j + 1) = i + 1 + j by omega] at this
        exact this)
    refine ⟨p', ?_, ?_, by rw [hp], by rw [hf]⟩
    · unfold Pager.flushLoop
      rw [flushPage_ok p i PAGE_SIZE pg hpg]
      exact hloop
    · rw [hw, List.range'_succ, List.map_cons]
      show p.writes ++ [(i, PAGE_SIZE)] ++ _ = _
      rw [List.append_assoc, List.singleton_append]

theorem flushLoop_zero (p : Pager) (i : Nat) (f : IoFaults) :
    p.flushLoop i 0 f = .ok () p := rfl

/-- The flush loop over a single full page. -/
theorem flushLoop_one (p : Pager) (f : IoFaults) :
    p.flushLoop 0 1 f = (match p.flushPage 0 PAGE_SIZE f with
      | Step.panicked m => Step.panicked m
      | Step.err e p' => Step.err e p'
      | Step.ok _ p' => Step.ok () p') := by
  show (match p.flushPage 0 PAGE_SIZE f with
    | Step.panicked m => Step.panicked m
    | Step.err e p' => Step.err e p'
    | Step.ok _ p' => p'.flushLoop 1 0 f) = _
  cases p.flushPage 0 PAGE_SIZE f <;> rfl

/-- `flush_all` on a one-row table (page 0 resident): a single partial
flush of `1 * ROW_SIZE` bytes at offset 0. -/
theorem flushAll_one_row (p : Pager) (pg0 : List Nat)
    (h0 : p.pages.getD 0 none = some pg0) :
    p.flushAll 1 noFaults = .ok ()
      { p with
        file := fileWrite p.file (0 * PAGE_SIZE) (pg0.take (1 * ROW_SIZE)),
        writes := p.writes ++ [(0, 1 * ROW_SIZE)] } := by
  unfold Pager.flushAll
  dsimp only
  rw [show (1 : Nat) / ROWS_PER_PAGE = 0 from by decide, flushLoop_zero]
  dsimp only
  rw [show (1 : Nat) % ROWS_PER_PAGE = 1 from by decide,
    if_pos (by decide : (0 : Nat) < 1),
    flushPage_ok p 0 (1 * ROW_SIZE) pg0 h0]
  rfl

/-- `flush_all` on a table of `ROWS_PER_PAGE + 1` rows (pages 0 and 1
resident): one full-page flush of page 0 then a partial flush of
`1 * ROW_SIZE` bytes of page 1. -/
theorem flushAll_two_pages (p : Pager) (pg0 pg1 : List Nat)
    (h0 : p.pages.getD 0 none = some pg0)
    (h1 : p.pages.getD 1 none = some pg1) :
    p.flushAll (ROWS_PER_PAGE + 1) noFaults = .ok ()
      { p with
        file := fileWrite (fileWrite p.file (0 * PAGE_SIZE) (pg0.take PAGE_SIZE)) (1 * PAGE_SIZE) (pg1.take (1 * ROW_SIZE)),
        writes := (p.writes ++ [(0, PAGE_SIZE)]) ++ [(1, 1 * ROW_SIZE)] } := by
  unfold Pager.flushAll
  dsimp only
  rw [show (ROWS_PER_PAGE + 1) / ROWS_PER_PAGE = 1 from by decide,
    flushLoop_one p noFaults, flushPage_ok p 0 PAGE_SIZE pg0 h0]
  dsimp only
  rw [show (ROWS_PER_PAGE + 1) % ROWS_PER_PAGE = 1 from by decide,
    if_pos (by decide : (0 : Nat) < 1)]
  have h1' : (Pager.mk
      (fileWrite p.file (0 * PAGE_SIZE) (pg0.take PAGE_SIZE)) p.fileLength
      p.pages p.reads (p.writes ++ [(0, PAGE_SIZE)])).pages.getD 1 none
      = some pg1 := h1
  rw [flushPage_ok _ 1 (1 * ROW_SIZE) pg1 h1']
  rfl

theorem fileWrite_nil (data : List Nat) : fileWrite [] 0 data = data := by
  simp [fileWrite]

/-- `flush_all`, all-success run, with every live page resident: flushes
exactly the full pages (each `PAGE_SIZE` bytes) followed by a partial
last page of `remainder * ROW_SIZE` bytes when the remainder is nonzero,
and nothing else. -/
theorem flushAll_ok (p : Pager) (num_rows : Nat)
    (hres : ∀ j, j * ROWS_PER_PAGE < num_rows →
      (p.pages.getD j none).isSome = true) :
    ∃ p', p.flushAll num_rows noFaults = .ok () p' ∧
      p'.writes = p.writes ++
        ((List.range (num_rows / ROWS_PER_PAGE)).map
          (fun j => (j, PAGE_SIZE))) ++
        (if 0 < num_rows % ROWS_PER_PAGE
          then [(num_rows / ROWS_PER_PAGE,
            (num_rows % ROWS_PER_PAGE) * ROW_SIZE)]
          else []) ∧
      p'.pages = p.pages ∧ p'.fileLength = p.fileLength := by
  obtain ⟨p₁, hloop, hw₁, hp₁, hf₁⟩ := flushLoop_ok (num_rows / ROWS_PER_PAGE)
    p 0
    (by
      intro j hj
      apply hres
      show (0 + j) * ROWS_PER_PAGE < num_rows
      simp only [ROWS_PER_PAGE, PAGE_SIZE, ROW_SIZE, ID_SIZE, USERNAME_SIZE,
        EMAIL_SIZE, COLUMN_USERNAME_SIZE, COLUMN_EMAIL_SIZE] at *
      omega)

  unfold Pager.flushAll
  dsimp only
  rw [hloop]
  dsimp only
  by_cases hrem : 0 < num_rows % ROWS_PER_PAGE
  · rw [if_pos hrem]
    have hfull : (num_rows / ROWS_PER_PAGE) * ROWS_PER_PAGE < num_rows := by
      simp only [ROWS_PER_PAGE, PAGE_SIZE, ROW_SIZE, ID_SIZE, USERNAME_SIZE,
        EMAIL_SIZE, COLUMN_USERNAME_SIZE, COLUMN_EMAIL_SIZE] at *
      omega
    have hsome : (p₁.pages.getD (num_rows / ROWS_PER_PAGE) none).isSome = true := by
      rw [hp₁]
      exact hres _ hfull
    obtain ⟨pg, hpg⟩ := Option.isSome_iff_exists.mp hsome
    rw [flushPage_ok p₁ _ _ pg hpg]
    refine ⟨_, rfl, ?_, by rw [hp₁], by rw [hf₁]⟩
    show p₁.writes ++ _ = _
    rw [hw₁, if_pos hrem, List.range_eq_range', List.append_assoc]
  · rw [if_neg hrem]
    refine ⟨p₁, rfl, ?_, hp₁, hf₁⟩
    rw [hw₁, if_neg hrem, List.range_eq_range', List.append_nil]

/-! ## Insert sequences and invariant preservation -/

/-- A row's byte window always fits inside its page. -/
theorem rowOffset_le (k : Nat) :
    (k % ROWS_PER_PAGE) * ROW_SIZE + ROW_SIZE ≤ PAGE_SIZE := by
  simp only [ROWS_PER_PAGE, ROW_SIZE, PAGE_SIZE, ID_SIZE, USERNAME_SIZE,
    EMAIL_SIZE, COLUMN_USERNAME_SIZE, COLUMN_EMAIL_SIZE]
  omega

/-- The page produced by serializing a well-formed row into its window
keeps the page length. -/
theorem newPage_length (p : Pager) (k : Nat) (row : Row)
    (hrow : row.WF) (hwf : p.WF) :
    (writeRange (p.pageView (k / ROWS_PER_PAGE))
      ((k % ROWS_PER_PAGE) * ROW_SIZE)
      (Row.serialize row (readRange (p.pageView (k / ROWS_PER_PAGE))
        ((k % ROWS_PER_PAGE) * ROW_SIZE) ROW_SIZE))).length = PAGE_SIZE := by
  obtain ⟨h1, h2, h3⟩ := hrow
  have hpv := pageView_length p (k / ROWS_PER_PAGE) hwf
  have hoff := rowOffset_le k
  have hwin : (readRange (p.pageView (k / ROWS_PER_PAGE))
      ((k % ROWS_PER_PAGE) * ROW_SIZE) ROW_SIZE).length = ROW_SIZE :=
    readRange_length _ _ _ (by omega)
  have hser : (Row.serialize row (readRange (p.pageView (k / ROWS_PER_PAGE))
      ((k % ROWS_PER_PAGE) * ROW_SIZE) ROW_SIZE)).length = ROW_SIZE := by
    rw [serialize_length _ _ h2 h3 (by omega)]
    exact hwin
  rw [writeRange_length _ _ _ (by omega), hpv]

/-- A sequence of inserts of well-formed rows below capacity, all-success
run: succeeds, adds the rows, preserves the pager invariant and the
residency of every page covering live rows, and never touches the file. -/
theorem insertMany_ok : ∀ (rows : List Row) (t : Table),
    (∀ r ∈ rows, r.WF) →
    t.num_rows + rows.length ≤ TABLE_MAX_ROWS →
    t.pager.WF →
    (∀ j, j * ROWS_PER_PAGE < t.num_rows →
      (t.pager.pages.getD j none).isSome = true) →
    ∃ t', insertMany t rows noFaults = .ok () t' ∧
      t'.num_rows = t.num_rows + rows.length ∧
      t'.pager.WF ∧
      t'.pager.file = t.pager.file ∧
      t'.pager.fileLength = t.pager.fileLength ∧
      t'.pager.writes = t.pager.writes ∧
      (∀ j, j * ROWS_PER_PAGE < t'.num_rows →
        (t'.pager.pages.getD j none).isSome = true) := by
  intro rows
  induction rows with
  | nil =>
    intro t _ _ hwf hres
    exact ⟨t, rfl, by simp, hwf, rfl, rfl, rfl, hres⟩
  | cons r rs ih =>
    intro t hrows hcap hwf hres
    have hlt : t.num_rows < TABLE_MAX_ROWS := by
      have := hcap
      simp only [List.length_cons] at this
      omega
    obtain ⟨t₁, hins, hnum₁, hfile₁, hflen₁, hwr₁, hplen₁, hresnew, hoth, hpv⟩ :=
      insert_ok t r hlt hwf.1
    have hwf₁ : t₁.pager.WF := by
      refine ⟨hplen₁, by rw [hfile₁, hflen₁]; exact hwf.2.1, ?_⟩
      intro j pg hpg
      by_cases hj : j = t.num_rows / ROWS_PER_PAGE
      · subst hj
        rw [hresnew] at hpg
        cases hpg
        exact newPage_length t.pager t.num_rows r (hrows r (by simp)) hwf
      · rw [hoth j hj] at hpg
        exact hwf.2.2 j pg hpg
    have hres₁ : ∀ j, j * ROWS_PER_PAGE < t₁.num_rows →
        (t₁.pager.pages.getD j none).isSome = true := by
      intro j hj
      rw [hnum₁] at hj
      by_cases hjp : j = t.num_rows / ROWS_PER_PAGE
      · subst hjp
        rw [hresnew]
        rfl
      · rw [hoth j hjp]
        apply hres
        revert hj hjp
        simp only [ROWS_PER_PAGE, ROW_SIZE, PAGE_SIZE, ID_SIZE, USERNAME_SIZE,
          EMAIL_SIZE, COLUMN_USERNAME_SIZE, COLUMN_EMAIL_SIZE]
        omega
    obtain ⟨t', hmany, hnum', hwf', hfile', hflen', hwr', hres'⟩ :=
      ih t₁ (fun a ha => hrows a (by simp [ha]))
        (by simp only [List.length_cons] at hcap; omega) hwf₁ hres₁
    refine ⟨t', ?_, ?_, hwf', by rw [hfile', hfile₁],
      by rw [hflen', hflen₁], by rw [hwr', hwr₁], hres'⟩
    · unfold insertMany
      rw [hins]
      exact hmany
    · rw [hnum', hnum₁]
      simp only [List.length_cons]
      omega

/-! ## Open lemmas -/

/-- `db_open`, all-success run: `num_rows` is derived from the file
length alone, the pager caches nothing yet. -/
theorem dbOpen_ok (disk : List Nat) :
    Table.dbOpen disk noFaults = .ok
      { num_rows := min (disk.length / ROW_SIZE) TABLE_MAX_ROWS,
        pager := { file := disk, fileLength := disk.length,
                   pages := List.replicate TABLE_MAX_PAGES none,
                   reads := 0, writes := [] } } () := rfl

/-! ## Claim theorems -/

/-- **C7** — Opening a table over a file of byte length L yields
`num_rows = min(L / R, row_capacity)` with `R = 291` and
`row_capacity = floor(P/R) * M = 1400`; the division truncates any
trailing partial record downward, and only the file length (no stored
header) enters the computation. -/
theorem c7_open_derives_num_rows (disk : List Nat) :
    (∃ t, Table.dbOpen disk noFaults = .ok t () ∧
      t.num_rows = min (disk.length / ROW_SIZE) TABLE_MAX_ROWS) ∧
    ROW_SIZE = 291 ∧ TABLE_MAX_ROWS = 1400 ∧
    TABLE_MAX_ROWS = (PAGE_SIZE / ROW_SIZE) * TABLE_MAX_PAGES :=
  ⟨⟨_, dbOpen_ok disk, rfl⟩, rfl, rfl, rfl⟩

/-- **C8** — At `num_rows = TABLE_MAX_ROWS` an insert is refused with
`TableFull` and the table is returned exactly as it was (under any fault
oracle); below capacity the insert is not refused and bumps `num_rows`;
consequently inserting exactly `TABLE_MAX_ROWS` well-formed rows into a
freshly opened empty table succeeds and the next insert fails. -/
theorem c8_capacity_guard (t : Table) (row : Row) (f : IoFaults)
    (rows : List Row) :
    (TABLE_MAX_ROWS ≤ t.num_rows →
      Statement.insert t row f = .err .tableFull t) ∧
    (t.num_rows < TABLE_MAX_ROWS → t.pager.pages.length = TABLE_MAX_PAGES →
      ∃ t', Statement.insert t row noFaults = .ok () t' ∧
        t'.num_rows = t.num_rows + 1) ∧
    (rows.length = TABLE_MAX_ROWS → (∀ r ∈ rows, r.WF) →
      ∃ t₀ t', Table.dbOpen [] noFaults = .ok t₀ () ∧
        insertMany t₀ rows noFaults = .ok () t' ∧
        t'.num_rows = TABLE_MAX_ROWS ∧
        Statement.insert t' row f = .err .tableFull t') := by
  refine ⟨fun h => insert_full t row f h, fun h hlen => ?_, fun hlen hwfr => ?_⟩
  · obtain ⟨t', h1, h2, _⟩ := insert_ok t row h hlen
    exact ⟨t', h1, h2⟩
  · have hn₀ : (min (List.length ([] : List Nat) / ROW_SIZE) TABLE_MAX_ROWS)
        = 0 := by decide
    have hwf₀ : (Pager.mk [] (List.length ([] : List Nat))
        (List.replicate TABLE_MAX_PAGES none) 0 []).WF := by
      refine ⟨List.length_replicate _ _, Nat.le_refl _, ?_⟩
      intro j pg hj
      rw [getD_replicate_none] at hj
      cases hj
    obtain ⟨t', hmany, hnum, _, _, _, _, _⟩ := insertMany_ok rows
      { num_rows := min (List.length ([] : List Nat) / ROW_SIZE) TABLE_MAX_ROWS,
        pager := Pager.mk [] (List.length ([] : List Nat))
          (List.replicate TABLE_MAX_PAGES none) 0 [] }
      hwfr (by rw [hlen]; show min _ _ + _ ≤ _; omega) hwf₀
      (by intro j hj; dsimp only at hj; rw [hn₀] at hj; omega)
    refine ⟨_, t', dbOpen_ok [], hmany, ?_, ?_⟩
    · rw [hnum, hlen]
      show min (List.length ([] : List Nat) / ROW_SIZE) TABLE_MAX_ROWS + _ = _
      omega
    · apply insert_full
      rw [hnum, hlen]
      show _ ≤ min (List.length ([] : List Nat) / ROW_SIZE) TABLE_MAX_ROWS + _
      omega

/-- Witness for C8: the full table refuses `row1` and is unchanged; the
empty table accepts it; the 1400-row fill of a fresh table succeeds and
the next insert fails. -/
theorem c8_witness :
    (Statement.insert
        ⟨TABLE_MAX_ROWS, ⟨[], 0, List.replicate TABLE_MAX_PAGES none, 0, []⟩⟩
        row1 noFaults =
      .err .tableFull
        ⟨TABLE_MAX_ROWS, ⟨[], 0, List.replicate TABLE_MAX_PAGES none, 0, []⟩⟩) ∧
    (∃ t', Statement.insert
        ⟨0, ⟨[], 0, List.replicate TABLE_MAX_PAGES none, 0, []⟩⟩
        row1 noFaults = .ok () t' ∧ t'.num_rows = 0 + 1) ∧
    (∃ t₀ t', Table.dbOpen [] noFaults = .ok t₀ () ∧
      insertMany t₀ (List.replicate TABLE_MAX_ROWS row1) noFaults = .ok () t' ∧
      t'.num_rows = TABLE_MAX_ROWS ∧
      Statement.insert t' row1 noFaults = .err .tableFull t') :=
  ⟨(c8_capacity_guard
      ⟨TABLE_MAX_ROWS, ⟨[], 0, List.replicate TABLE_MAX_PAGES none, 0, []⟩⟩
      row1 noFaults []).1 (by decide),
   (c8_capacity_guard
      ⟨0, ⟨[], 0, List.replicate TABLE_MAX_PAGES none, 0, []⟩⟩
      row1 noFaults []).2.1 (by decide) (by simp),
   (c8_capacity_guard
      ⟨0, ⟨[], 0, List.replicate TABLE_MAX_PAGES none, 0, []⟩⟩
      row1 noFaults (List.replicate TABLE_MAX_ROWS row1)).2.2 (by simp)
      (fun r hr => by rw [List.eq_of_mem_replicate hr]; decide)⟩

/-- **C10** — After open and after every successful append,
`num_rows ≤ TABLE_MAX_ROWS`; every page index computed from a row number
below the cap is below `TABLE_MAX_PAGES`; hence the out-of-bounds abort
in `get_page` is unreachable from insert and scan on such tables. -/
theorem c10_page_bound_invariant (disk : List Nat) (t : Table) (row : Row) :
    (∀ tr : Table, Table.dbOpen disk noFaults = .ok tr () →
      tr.num_rows ≤ TABLE_MAX_ROWS) ∧
    (∀ t' : Table, Statement.insert t row noFaults = .ok () t' →
      t.num_rows ≤ TABLE_MAX_ROWS → t'.num_rows ≤ TABLE_MAX_ROWS) ∧
    (∀ n, n < TABLE_MAX_ROWS → n / ROWS_PER_PAGE < TABLE_MAX_PAGES) ∧
    (t.num_rows ≤ TABLE_MAX_ROWS → t.pager.pages.length = TABLE_MAX_PAGES →
      (∀ m, Statement.insert t row noFaults ≠ .panicked m) ∧
      (∀ m, t.select noFaults ≠ .panicked m)) := by
  refine ⟨?_, ?_, fun n h => rowPage_lt n h, fun hb hlen => ⟨?_, ?_⟩⟩
  · intro tr h
    rw [dbOpen_ok disk] at h
    injection h with h1 _
    rw [← h1]
    exact Nat.min_le_right _ _
  · intro t' hins _
    by_cases hfull : TABLE_MAX_ROWS ≤ t.num_rows
    · rw [insert_full t row noFaults hfull] at hins
      cases hins
    · have hlt : t.num_rows < TABLE_MAX_ROWS := Nat.not_le.mp hfull
      by_cases hlen : t.pager.pages.length = TABLE_MAX_PAGES
      · obtain ⟨t₁, h1, h2, _⟩ := insert_ok t row hlt hlen
        rw [h1] at hins
        injection hins with _ h3
        rw [← h3, h2]
        omega
      · -- with a malformed slot array the insert still cannot return `.ok`
        -- with a too-large row count: `num_rows` grows by exactly one
        unfold Statement.insert at hins
        rw [if_neg (Nat.not_le.mpr hlt)] at hins
        unfold Cursor.writeRow Table.tableEnd at hins
        dsimp only at hins
        cases hget : (t.pager.getPage (t.num_rows / ROWS_PER_PAGE) noFaults) with
        | ok page pager =>
          rw [hget] at hins
          dsimp only at hins
          injection hins with _ h3
          rw [← h3]
          show t.num_rows + 1 ≤ TABLE_MAX_ROWS
          omega
        | err e s => exact e.elim
        | panicked m =>
          rw [hget] at hins
          cases hins
  · intro m h
    by_cases hfull : TABLE_MAX_ROWS ≤ t.num_rows
    · rw [insert_full t row noFaults hfull] at h
      cases h
    · obtain ⟨t₁, h1, _, _⟩ := insert_ok t row (Nat.not_le.mp hfull) hlen
      rw [h1] at h
      cases h
  · intro m h
    obtain ⟨t₁, h1⟩ := select_ok t hb hlen
    rw [h1] at h
    cases h

/-- Witness for C10 at the freshly opened empty table and `row1`. -/
theorem c10_witness :
    ((Table.mk (min (List.length ([] : List Nat) / ROW_SIZE) TABLE_MAX_ROWS)
        (Pager.mk [] (List.length ([] : List Nat))
          (List.replicate TABLE_MAX_PAGES none) 0 [])).num_rows
      ≤ TABLE_MAX_ROWS) ∧
    ((∀ m, Statement.insert
        ⟨0, ⟨[], 0, List.replicate TABLE_MAX_PAGES none, 0, []⟩⟩ row1 noFaults
        ≠ .panicked m) ∧
      (∀ m, Table.select
        ⟨0, ⟨[], 0, List.replicate TABLE_MAX_PAGES none, 0, []⟩⟩ noFaults
        ≠ .panicked m)) :=
  ⟨(c10_page_bound_invariant []
      ⟨0, ⟨[], 0, List.replicate TABLE_MAX_PAGES none, 0, []⟩⟩ row1).1 _ rfl,
   (c10_page_bound_invariant []
      ⟨0, ⟨[], 0, List.replicate TABLE_MAX_PAGES none, 0, []⟩⟩ row1).2.2.2
      (by decide) (by simp)⟩

/-- **C2 counterexample** — an `OpenOptions::open` failure makes
`Pager::open` panic (`.expect("Error while opening pager")`) instead of
returning an I/O error value, and a `read_exact` failure inside
`get_page` panics as well: the claim that every open/read failure is
surfaced to the caller as an error value is false on the code. -/
theorem c2_counterexample :
    Pager.openP [] ⟨true, false, false, false, false⟩ =
      .panicked "Error while opening pager" ∧
    ¬ (Pager.openP [] ⟨true, false, false, false, false⟩ = .err () ()) ∧
    Pager.getPage ⟨List.replicate 3 7, 3, List.replicate TABLE_MAX_PAGES none,
        0, []⟩ 0 ⟨false, false, true, false, false⟩ =
      .panicked "Unable to read the page from file." := by
  refine ⟨rfl, by decide, by decide⟩

/-- **C2 (amended)** — I/O failures on the open-time seek and on
`flush_page`'s seek/write are surfaced to the caller as error values and
the operation is attempted once (no retry); but a failure of
`OpenOptions::open` panics instead of returning the `io::Result` the
signature promises, and seek/read failures inside `get_page` (which has
no error channel) panic the process. -/
theorem c2_io_error_surfacing (disk : List Nat) (p : Pager) (n size : Nat)
    (pg : List Nat) (f : IoFaults) :
    (f.openFails = true →
      Pager.openP disk f = .panicked "Error while opening pager") ∧
    (f.openFails = false → f.seekFails = true →
      Pager.openP disk f = .err () ()) ∧
    (p.pages.getD n none = some pg → f.seekFails = true →
      p.flushPage n size f = .err () p) ∧
    (p.pages.getD n none = some pg → f.seekFails = false →
      f.writeFails = true → p.flushPage n size f = .err () p) ∧
    (n < TABLE_MAX_PAGES → p.pages.getD n none = none →
      n < (p.fileLength + PAGE_SIZE - 1) / PAGE_SIZE → f.seekFails = true →
      p.getPage n f = .panicked "Unable to set page offset in file.") ∧
    (n < TABLE_MAX_PAGES → p.pages.getD n none = none →
      n < (p.fileLength + PAGE_SIZE - 1) / PAGE_SIZE → f.seekFails = false →
      f.readFails = true →
      p.getPage n f = .panicked "Unable to read the page from file.") := by
  refine ⟨?_, ?_, ?_, ?_, ?_, ?_⟩
  · intro h
    unfold Pager.openP
    rw [if_pos h]
  · intro h1 h2
    unfold Pager.openP
    rw [if_neg (by rw [h1]; exact Bool.false_ne_true), if_pos h2]
  · intro hpg hseek
    unfold Pager.flushPage
    rw [hpg]
    show (if f.seekFails = true then _ else _) = _
    rw [if_pos hseek]
  · intro hpg hseek hwrite
    unfold Pager.flushPage
    rw [hpg]
    show (if f.seekFails = true then _ else _) = _
    rw [if_neg (by rw [hseek]; exact Bool.false_ne_true), if_pos hwrite]
  · intro hn hslot hdisk hseek
    unfold Pager.getPage
    rw [if_neg (Nat.not_le.mpr hn), hslot]
    show (if n < (p.fileLength + PAGE_SIZE - 1) / PAGE_SIZE then _ else _) = _
    rw [if_pos hdisk, if_pos hseek]
  · intro hn hslot hdisk hseek hread
    unfold Pager.getPage
    rw [if_neg (Nat.not_le.mpr hn), hslot]
    show (if n < (p.fileLength + PAGE_SIZE - 1) / PAGE_SIZE then _ else _) = _
    rw [if_pos hdisk,
      if_neg (by rw [hseek]; exact Bool.false_ne_true),
      if_pos (bytes_pos p.fileLength n hdisk), if_pos hread]

/-- Witness for the amended C2 at concrete pagers and fault oracles. -/
theorem c2_witness :
    (Pager.openP [] ⟨true, false, false, false, false⟩ =
      .panicked "Error while opening pager") ∧
    (Pager.openP [] ⟨false, true, false, false, false⟩ = .err () ()) ∧
    (Pager.flushPage
        ⟨[], 0, (List.replicate TABLE_MAX_PAGES none).set 0 (some []), 0, []⟩
        0 4 ⟨false, true, false, false, false⟩ =
      .err ()
        ⟨[], 0, (List.replicate TABLE_MAX_PAGES none).set 0 (some []), 0, []⟩) ∧
    (Pager.getPage ⟨List.replicate 3 7, 3,
        List.replicate TABLE_MAX_PAGES none, 0, []⟩ 0
        ⟨false, false, true, false, false⟩ =
      .panicked "Unable to read the page from file.") :=
  ⟨(c2_io_error_surfacing [] ⟨[], 0, [], 0, []⟩ 0 0 [] _).1 rfl,
   (c2_io_error_surfacing [] ⟨[], 0, [], 0, []⟩ 0 0 [] _).2.1 rfl rfl,
   (c2_io_error_surfacing []
      ⟨[], 0, (List.replicate TABLE_MAX_PAGES none).set 0 (some []), 0, []⟩
      0 4 [] _).2.2.1 (by decide) rfl,
   (c2_io_error_surfacing []
      ⟨List.replicate 3 7, 3, List.replicate TABLE_MAX_PAGES none, 0, []⟩
      0 0 [] _).2.2.2.2.2 (by decide) (by decide) (by decide) rfl rfl⟩

/-- **C1** — the claim that `close_table` always returns Ok or an I/O
error on reachable tables is violated by the code: a table opened over a
non-empty file (here `ROW_SIZE` bytes, one persisted row) whose pages
were never loaded panics in `flush_page` ("Tried to flush a null page")
when closed, instead of returning Ok or an I/O error. -/
theorem c1_close_after_reopen_panics :
    closeAfterReopen = some (.panicked "Tried to flush a null page") := rfl

/-- **C5** — First `get_page` on an absent slot returns a
`PAGE_SIZE`-byte buffer: when the index is inside the
`ceil(file_length / PAGE_SIZE)` on-disk range, its prefix of
`min(PAGE_SIZE, file_length - idx*PAGE_SIZE)` bytes is read from file
offset `idx * PAGE_SIZE` and the rest is zero; beyond that range the
buffer is all zero.  Every subsequent `get_page` of the same index
returns the very same resident buffer with the pager state unchanged —
in particular, no further disk read. -/
theorem c5_get_page_load_and_cache (p : Pager) (idx : Nat)
    (h1 : idx < TABLE_MAX_PAGES) (h2 : p.pages.getD idx none = none)
    (h3 : p.fileLength ≤ p.file.length)
    (h4 : p.pages.length = TABLE_MAX_PAGES) :
    ∃ page p', p.getPage idx noFaults = .ok page p' ∧
      page.length = PAGE_SIZE ∧
      (idx < (p.fileLength + PAGE_SIZE - 1) / PAGE_SIZE →
        page = readRange p.file (idx * PAGE_SIZE)
            (min (p.fileLength - idx * PAGE_SIZE) PAGE_SIZE) ++
          List.replicate
            (PAGE_SIZE - min (p.fileLength - idx * PAGE_SIZE) PAGE_SIZE) 0) ∧
      (¬ idx < (p.fileLength + PAGE_SIZE - 1) / PAGE_SIZE →
        page = List.replicate PAGE_SIZE 0) ∧
      p'.getPage idx noFaults = .ok page p' := by
  have hidx : idx < p.pages.length := by rw [h4]; exact h1
  by_cases hdisk : idx < (p.fileLength + PAGE_SIZE - 1) / PAGE_SIZE
  · have hpv := pageView_none_disk p idx h2 hdisk
    refine ⟨p.pageView idx, _,
      getPage_miss_disk p idx h2 hdisk (bytes_pos _ _ hdisk) h1, ?_,
      fun _ => hpv, fun hc => absurd hdisk hc, ?_⟩
    · rw [hpv]
      have hnb : idx * PAGE_SIZE < p.fileLength := by
        simp only [PAGE_SIZE] at *
        omega
      have hm1 := Nat.min_le_left (p.fileLength - idx * PAGE_SIZE) PAGE_SIZE
      have hm2 := Nat.min_le_right (p.fileLength - idx * PAGE_SIZE) PAGE_SIZE
      rw [List.length_append, List.length_replicate,
        readRange_length _ _ _ (by omega)]
      omega
    · exact getPage_hit _ _ _ _ h1 (getD_set_self _ _ _ hidx)
  · have hpv := pageView_none_beyond p idx h2 hdisk
    refine ⟨p.pageView idx, _, getPage_miss_beyond p idx h2 hdisk h1, ?_,
      fun hc => absurd hc hdisk, fun _ => hpv, ?_⟩
    · rw [hpv, List.length_replicate]
    · exact getPage_hit _ _ _ _ h1 (getD_set_self _ _ _ hidx)

/-- Witness for C5 at page 0 of a freshly opened 3-byte file. -/
theorem c5_witness :
    ((0 : Nat) < TABLE_MAX_PAGES ∧
      (Pager.mk (List.replicate 3 7) 3 (List.replicate TABLE_MAX_PAGES none)
        0 []).pages.getD 0 none = none ∧
      (3 : Nat) ≤ (List.replicate 3 7 : List Nat).length) ∧
    ∃ page p',
      Pager.getPage
        ⟨List.replicate 3 7, 3, List.replicate TABLE_MAX_PAGES none, 0, []⟩
        0 noFaults = .ok page p' ∧
      page.length = PAGE_SIZE ∧ p'.getPage 0 noFaults = .ok page p' :=
  ⟨⟨by decide, by decide, by simp⟩, by
    obtain ⟨page, p', ha, hb, _, _, he⟩ := c5_get_page_load_and_cache
      ⟨List.replicate 3 7, 3, List.replicate TABLE_MAX_PAGES none, 0, []⟩ 0
      (by decide) (by decide) (by simp) (by simp)
    exact ⟨page, p', ha, hb, he⟩⟩

/-- **C9** — A scan yields exactly the rows at indices
`0 .. num_rows - 1` in index order, each obtained by deserializing the
`ROW_SIZE`-byte window at page `n / ROWS_PER_PAGE`, byte offset
`(n % ROWS_PER_PAGE) * ROW_SIZE` (`rowAt`); after the last row the
sequence ends, and a scan of an empty table yields nothing. -/
theorem c9_scan_yields_all_rows (t : Table)
    (hmax : t.num_rows ≤ TABLE_MAX_ROWS)
    (hlen : t.pager.pages.length = TABLE_MAX_PAGES) :
    ∃ t', t.select noFaults =
        .ok ((List.range t.num_rows).map (rowAt t)) t' ∧
      ((List.range t.num_rows).map (rowAt t)).length = t.num_rows ∧
      (t.num_rows = 0 → t.select noFaults = .ok [] t') := by
  obtain ⟨t', h⟩ := select_ok t hmax hlen
  refine ⟨t', h, by simp, ?_⟩
  intro h0
  rw [h, h0]
  rfl

/-- **C6** — Closing flushes exactly the pages covering the live rows:
each of the `num_rows / ROWS_PER_PAGE` full pages with `PAGE_SIZE` bytes
in order, then, if `num_rows % ROWS_PER_PAGE > 0`, one further page with
`remainder * ROW_SIZE` bytes; every flushed page index covers live rows
(nothing beyond is written); and appending `ROWS_PER_PAGE + 1` rows to
an empty file then closing leaves a file of exactly
`PAGE_SIZE + ROW_SIZE` bytes. -/
theorem c6_close_flushes_exactly_live_pages (t : Table)
    (hres : ∀ j, j * ROWS_PER_PAGE < t.num_rows →
      (t.pager.pages.getD j none).isSome = true) :
    (∃ p', t.dbClose noFaults = .ok () p' ∧
      p'.writes = t.pager.writes ++
        ((List.range (t.num_rows / ROWS_PER_PAGE)).map
          (fun j => (j, PAGE_SIZE))) ++
        (if 0 < t.num_rows % ROWS_PER_PAGE
          then [(t.num_rows / ROWS_PER_PAGE,
            (t.num_rows % ROWS_PER_PAGE) * ROW_SIZE)]
          else [])) ∧
    (∀ w ∈ ((List.range (t.num_rows / ROWS_PER_PAGE)).map
          (fun j => (j, PAGE_SIZE))) ++
        (if 0 < t.num_rows % ROWS_PER_PAGE
          then [(t.num_rows / ROWS_PER_PAGE,
            (t.num_rows % ROWS_PER_PAGE) * ROW_SIZE)]
          else []),
      w.1 * ROWS_PER_PAGE < t.num_rows) ∧
    partialPageFileLength = some (PAGE_SIZE + ROW_SIZE) := by
  refine ⟨?_, ?_, ?_⟩
  · obtain ⟨p', h1, h2, _, _⟩ := flushAll_ok t.pager t.num_rows hres
    exact ⟨p', h1, h2⟩
  · intro w hw
    rcases List.mem_append.mp hw with hw | hw
    · obtain ⟨j, hj, hwj⟩ := List.mem_map.mp hw
      rw [← hwj]
      have := List.mem_range.mp hj
      revert this
      show j < t.num_rows / ROWS_PER_PAGE → j * ROWS_PER_PAGE < t.num_rows
      simp only [ROWS_PER_PAGE, ROW_SIZE, PAGE_SIZE, ID_SIZE, USERNAME_SIZE,
        EMAIL_SIZE, COLUMN_USERNAME_SIZE, COLUMN_EMAIL_SIZE]
      omega
    · by_cases hrem : 0 < t.num_rows % ROWS_PER_PAGE
      · rw [if_pos hrem] at hw
        have hwe : w = (t.num_rows / ROWS_PER_PAGE,
            (t.num_rows % ROWS_PER_PAGE) * ROW_SIZE) := by
          simpa using hw
        rw [hwe]
        show t.num_rows / ROWS_PER_PAGE * ROWS_PER_PAGE < t.num_rows
        revert hrem
        simp only [ROWS_PER_PAGE, ROW_SIZE, PAGE_SIZE, ID_SIZE, USERNAME_SIZE,
          EMAIL_SIZE, COLUMN_USERNAME_SIZE, COLUMN_EMAIL_SIZE]
        omega
      · rw [if_neg hrem] at hw
        cases hw
  · -- the concrete partial-last-page scenario
    unfold partialPageFileLength
    rw [dbOpen_ok []]
    dsimp only
    have hwf₀ : (Pager.mk [] (List.length ([] : List Nat))
        (List.replicate TABLE_MAX_PAGES none) 0 []).WF := by
      refine ⟨List.length_replicate _ _, Nat.le_refl _, ?_⟩
      intro j pg hj
      rw [getD_replicate_none] at hj
      cases hj
    obtain ⟨t₁, hmany, hnum, hwf₁, hfile₁, _, _, hres₁⟩ :=
      insertMany_ok (List.replicate (ROWS_PER_PAGE + 1) row1)
        { num_rows := min (List.length ([] : List Nat) / ROW_SIZE)
            TABLE_MAX_ROWS,
          pager := Pager.mk [] (List.length ([] : List Nat))
            (List.replicate TABLE_MAX_PAGES none) 0 [] }
        (fun r hr => by rw [List.eq_of_mem_replicate hr]; decide)
        (by simp only [List.length_replicate]; decide) hwf₀
        (by intro j hj; dsimp only at hj;
            rw [show min (List.length ([] : List Nat) / ROW_SIZE)
              TABLE_MAX_ROWS = 0 from by decide] at hj; omega)
    rw [hmany]
    dsimp only
    have hnum' : t₁.num_rows = ROWS_PER_PAGE + 1 := by
      rw [hnum]
      simp only [List.length_replicate]
      decide
    obtain ⟨pg0, hpg0⟩ := Option.isSome_iff_exists.mp
      (hres₁ 0 (by rw [hnum']; decide))
    obtain ⟨pg1, hpg1⟩ := Option.isSome_iff_exists.mp
      (hres₁ 1 (by rw [hnum']; decide))
    have hl0 : pg0.length = PAGE_SIZE := hwf₁.2.2 0 pg0 hpg0
    have hl1 : pg1.length = PAGE_SIZE := hwf₁.2.2 1 pg1 hpg1
    unfold Table.dbClose
    rw [hnum', flushAll_two_pages t₁.pager pg0 pg1 hpg0 hpg1]
    dsimp only
    rw [hfile₁]
    dsimp only
    rw [fileWrite_length, fileWrite_length, List.length_take,
      List.length_take, hl0, hl1]
    simp only [List.length_nil, PAGE_SIZE, ROW_SIZE, ID_SIZE, USERNAME_SIZE,
      EMAIL_SIZE, COLUMN_USERNAME_SIZE, COLUMN_EMAIL_SIZE]
    rfl

/-- Witness for C6 at a table whose single live page (page 0, one row)
is resident. -/
theorem c6_witness :
    (∀ j, j * ROWS_PER_PAGE <
      (Table.mk 1 ⟨[], 0, (List.replicate TABLE_MAX_PAGES none).set 0
        (some []), 0, []⟩).num_rows →
      (((List.replicate TABLE_MAX_PAGES
        (none : Option (List Nat))).set 0 (some [])).getD j none).isSome
        = true) ∧
    ∃ p', Table.dbClose
        ⟨1, ⟨[], 0, (List.replicate TABLE_MAX_PAGES none).set 0 (some []),
          0, []⟩⟩ noFaults = .ok () p' := by
  have h : ∀ j, j * ROWS_PER_PAGE <
      (Table.mk 1 ⟨[], 0, (List.replicate TABLE_MAX_PAGES none).set 0
        (some []), 0, []⟩).num_rows →
      (((List.replicate TABLE_MAX_PAGES
        (none : Option (List Nat))).set 0 (some [])).getD j none).isSome
        = true := by
    intro j hj
    have hj0 : j = 0 := by
      by_contra hc
      have h14 : (1:Nat) ≤ j := by omega
      have : ROWS_PER_PAGE ≤ j * ROWS_PER_PAGE := by
        calc ROWS_PER_PAGE = 1 * ROWS_PER_PAGE := by rw [Nat.one_mul]
        _ ≤ j * ROWS_PER_PAGE := Nat.mul_le_mul_right _ h14
      dsimp only at hj
      have : ROWS_PER_PAGE < 1 := by omega
      revert this
      decide
    rw [hj0]
    decide
  refine ⟨h, ?_⟩
  obtain ⟨p', h1, _⟩ := (c6_close_flushes_exactly_live_pages
    ⟨1, ⟨[], 0, (List.replicate TABLE_MAX_PAGES none).set 0 (some []),
      0, []⟩⟩ h).1
  exact ⟨p', h1⟩

/-- **C3** — Starting from an empty file, appending the row
`(1, "user1", "person1@example.com")`, closing the table, reopening the
produced file and scanning yields exactly one row, equal to the inserted
row: a full round-trip through the on-disk representation. -/
theorem c3_persistence_roundtrip :
    ∃ t t₁ p₂ t₂ t₃, Table.dbOpen [] noFaults = .ok t () ∧
      Statement.insert t row1 noFaults = .ok () t₁ ∧
      t₁.dbClose noFaults = .ok () p₂ ∧
      Table.dbOpen p₂.file noFaults = .ok t₂ () ∧
      t₂.select noFaults = .ok [row1] t₃ := by
  obtain ⟨t₁, hins, hnum, hfile₁, hflen₁, hwr₁, hplen₁, hres, hoth, hpv⟩ :=
    insert_ok
      { num_rows := min (List.length ([] : List Nat) / ROW_SIZE)
          TABLE_MAX_ROWS,
        pager := Pager.mk [] (List.length ([] : List Nat))
          (List.replicate TABLE_MAX_PAGES none) 0 [] }
      row1 (by decide) (by simp)
  dsimp only at hres hnum
  rw [show min (List.length ([] : List Nat) / ROW_SIZE) TABLE_MAX_ROWS = 0
    from by decide] at hres hnum
  rw [Nat.zero_div, Nat.zero_mod, Nat.zero_mul] at hres
  have hpv0 : (Pager.mk [] (List.length ([] : List Nat))
      (List.replicate TABLE_MAX_PAGES none) 0 []).pageView 0
      = List.replicate PAGE_SIZE 0 := by
    apply pageView_none_beyond
    · exact getD_replicate_none _ _
    · decide
  rw [hpv0] at hres
  have hwin : readRange (List.replicate PAGE_SIZE 0) 0 ROW_SIZE
      = List.replicate ROW_SIZE 0 := by
    unfold readRange
    rw [List.drop_zero, List.take_replicate,
      show ROW_SIZE ⊓ PAGE_SIZE = ROW_SIZE from by decide]
  rw [hwin] at hres
  set s := Row.serialize row1 (List.replicate ROW_SIZE 0) with hs
  have hslen : s.length = ROW_SIZE := by
    rw [hs, serialize_length row1 _ (by decide) (by decide) (by simp)]
    simp
  have hwr : writeRange (List.replicate PAGE_SIZE 0) 0 s
      = s ++ List.replicate (PAGE_SIZE - ROW_SIZE) 0 := by
    unfold writeRange
    rw [List.take_zero, List.nil_append, Nat.zero_add, hslen,
      List.drop_replicate]
  rw [hwr] at hres
  have hnum1 : t₁.num_rows = 1 := by rw [hnum]
  have hdb : t₁.dbClose noFaults = .ok ()
      { t₁.pager with
        file := fileWrite t₁.pager.file (0 * PAGE_SIZE)
          ((s ++ List.replicate (PAGE_SIZE - ROW_SIZE) 0).take (1 * ROW_SIZE)),
        writes := t₁.pager.writes ++ [(0, 1 * ROW_SIZE)] } := by
    unfold Table.dbClose
    rw [hnum1]
    exact flushAll_one_row t₁.pager _ hres
  have hf1 : t₁.pager.file = [] := hfile₁
  have htake : (s ++ List.replicate (PAGE_SIZE - ROW_SIZE) 0).take
      (1 * ROW_SIZE) = s := by
    rw [show (1 : Nat) * ROW_SIZE = ROW_SIZE from Nat.one_mul _]
    exact List.take_left' hslen
  have hpf : (Pager.mk
      (fileWrite t₁.pager.file (0 * PAGE_SIZE)
        ((s ++ List.replicate (PAGE_SIZE - ROW_SIZE) 0).take (1 * ROW_SIZE)))
      t₁.pager.fileLength t₁.pager.pages t₁.pager.reads
      (t₁.pager.writes ++ [(0, 1 * ROW_SIZE)])).file = s := by
    show fileWrite t₁.pager.file (0 * PAGE_SIZE)
      ((s ++ List.replicate (PAGE_SIZE - ROW_SIZE) 0).take (1 * ROW_SIZE)) = s
    rw [htake, hf1, show (0 : Nat) * PAGE_SIZE = 0 from Nat.zero_mul _,
      fileWrite_nil]
  have hpv₂ : (Pager.mk s s.length (List.replicate TABLE_MAX_PAGES none)
      0 []).pageView 0 = s ++ List.replicate (PAGE_SIZE - ROW_SIZE) 0 := by
    rw [pageView_none_disk _ 0 (getD_replicate_none _ _)
      (by show 0 < (s.length + PAGE_SIZE - 1) / PAGE_SIZE;
          rw [hslen]; decide)]
    show readRange s (0 * PAGE_SIZE)
        (min (s.length - 0 * PAGE_SIZE) PAGE_SIZE) ++ _ = _
    rw [show (0 : Nat) * PAGE_SIZE = 0 from Nat.zero_mul _, Nat.sub_zero,
      hslen, show min ROW_SIZE PAGE_SIZE = ROW_SIZE from by decide]
    unfold readRange
    rw [List.drop_zero]
    have hts : s.take ROW_SIZE = s := by
      rw [← hslen]
      exact List.take_length s
    rw [hts]
  have hrow : rowAt
      { num_rows := min (s.length / ROW_SIZE) TABLE_MAX_ROWS,
        pager := Pager.mk s s.length (List.replicate TABLE_MAX_PAGES none)
          0 [] } 0 = row1 := by
    unfold rowAt
    dsimp only
    rw [Nat.zero_div, Nat.zero_mod, Nat.zero_mul, hpv₂]
    have hread : readRange (s ++ List.replicate (PAGE_SIZE - ROW_SIZE) 0) 0
        ROW_SIZE = s := by
      unfold readRange
      rw [List.drop_zero]
      exact List.take_left' hslen
    rw [hread, hs]
    exact deserialize_serialize row1 _ (by decide) (by decide) (by decide)
      (by simp)
  obtain ⟨t₃, hsel⟩ := select_ok
    { num_rows := min (s.length / ROW_SIZE) TABLE_MAX_ROWS,
      pager := Pager.mk s s.length (List.replicate TABLE_MAX_PAGES none)
        0 [] }
    (by dsimp only; exact Nat.min_le_right _ _) (by simp)
  have hmaps : (List.range (Table.mk
      (min (s.length / ROW_SIZE) TABLE_MAX_ROWS)
      (Pager.mk s s.length (List.replicate TABLE_MAX_PAGES none)
        0 [])).num_rows).map (rowAt
      { num_rows := min (s.length / ROW_SIZE) TABLE_MAX_ROWS,
        pager := Pager.mk s s.length (List.replicate TABLE_MAX_PAGES none)
          0 [] }) = [row1] := by
    rw [show (Table.mk (min (s.length / ROW_SIZE) TABLE_MAX_ROWS)
      (Pager.mk s s.length (List.replicate TABLE_MAX_PAGES none)
        0 [])).num_rows = 1 from by
        show min (s.length / ROW_SIZE) TABLE_MAX_ROWS = 1
        rw [hslen]; decide]
    rw [show List.range 1 = [0] from rfl]
    simp only [List.map_cons, List.map_nil]
    rw [hrow]
  rw [hmaps] at hsel
  refine ⟨_, t₁, _, _, t₃, dbOpen_ok [], hins, hdb, ?_, hsel⟩
  rw [hpf]
  exact dbOpen_ok s

/-- Witness for C9 at the freshly opened empty table (empty scan). -/
theorem c9_witness :
    ((Table.mk 0 ⟨[], 0, List.replicate TABLE_MAX_PAGES none, 0, []⟩).num_rows
        ≤ TABLE_MAX_ROWS ∧
      (Table.mk 0 ⟨[], 0, List.replicate TABLE_MAX_PAGES none, 0,
        []⟩).pager.pages.length = TABLE_MAX_PAGES) ∧
    ∃ t', Table.select
        ⟨0, ⟨[], 0, List.replicate TABLE_MAX_PAGES none, 0, []⟩⟩ noFaults =
      .ok [] t' :=
  ⟨⟨by decide, by simp⟩, by
    obtain ⟨t', _, _, h⟩ := c9_scan_yields_all_rows
      ⟨0, ⟨[], 0, List.replicate TABLE_MAX_PAGES none, 0, []⟩⟩
      (by decide) (by simp)
    exact ⟨t', h rfl⟩⟩

end RustSqlite
